import Mathlib

set_option maxRecDepth 4000

/-!
Verification of the career-recommendation engine
(`career_recommendation_system.py`) against its specification.

The development shallowly embeds the Python code:

* Python strings are `String` (ASCII model: `str.lower` is `Char.toLower`
  on each character, `str.strip` removes the ASCII whitespace characters,
  `a in b` is contiguous-substring search).
* Python floats are idealised as exact numbers: percentages computed with
  `/` and `*` live in `ℚ`, TF-IDF weights and cosine similarities
  (which involve `log` and `sqrt`) live in `ℝ`.
* A Python `dict` preserves insertion order, so the career catalog is an
  association list in declaration order.
* A Python `set` has an unspecified, hash-dependent iteration order.
  Wherever the code iterates over a set (the `required_skills` set in
  `analyze_skill_gap`), the embedding takes the enumeration order as an
  explicit parameter `reqIter`, constrained by `IterOK` to enumerate the
  elements of the set exactly once.  Theorems quantify over all admissible
  enumerations.
-/

/-! ### Python string primitives -/

/-- Model of Python `str.lower()` (ASCII). -/
def pyLower (s : String) : String := ⟨s.data.map Char.toLower⟩

/-- ASCII whitespace recognised by Python `str.strip()`. -/
def pyIsSpace (c : Char) : Bool :=
  c == ' ' || c == '\t' || c == '\n' || c == '\r' || c == '\x0b' || c == '\x0c'

/-- Model of Python `str.strip()`: drop leading and trailing whitespace. -/
def pyStrip (s : String) : String :=
  ⟨((s.data.dropWhile pyIsSpace).reverse.dropWhile pyIsSpace).reverse⟩

/-- Does the pattern occur at the front of the char list? -/
def startsWithL : List Char → List Char → Bool
  | [], _ => true
  | _ :: _, [] => false
  | a :: p, b :: l => a == b && startsWithL p l

/-- Does the pattern occur as a contiguous substring starting at any position? -/
def substrAt (p : List Char) : List Char → Bool
  | [] => startsWithL p []
  | c :: l => startsWithL p (c :: l) || substrAt p l

/-- Model of the Python substring test `a in b`. -/
def pyIn (a b : String) : Bool := substrAt a.data b.data

/-! ### The career catalog (`CAREER_DATABASE`) -/

/-- One catalog entry: the value dict of `CAREER_DATABASE`. -/
structure CareerInfo where
  skills : List String
  description : String
  salary_range : String
  growth : String
  experience_level : String
deriving DecidableEq

/-- `CAREER_DATABASE`, as an association list in Python dict insertion order. -/
def careerDB : List (String × CareerInfo) :=
  [("Data Scientist",
    { skills := ["Python", "Machine Learning", "Statistics", "SQL", "Data Visualization", "Deep Learning", "NLP"],
      description := "Analyze complex data to extract insights and build predictive models",
      salary_range := "$90,000 - $150,000", growth := "High", experience_level := "2-5 years" }),
   ("Software Engineer",
    { skills := ["Python", "Java", "JavaScript", "System Design", "Databases", "Cloud Computing", "Git"],
      description := "Design, develop, and maintain software applications",
      salary_range := "$80,000 - $140,000", growth := "Very High", experience_level := "0-5 years" }),
   ("Product Manager",
    { skills := ["Product Strategy", "Market Research", "Agile", "Communication", "Analytics", "Leadership", "UX"],
      description := "Lead product development from concept to launch",
      salary_range := "$100,000 - $160,000", growth := "High", experience_level := "3-7 years" }),
   ("DevOps Engineer",
    { skills := ["Docker", "Kubernetes", "AWS", "CI/CD", "Linux", "Scripting", "Monitoring"],
      description := "Bridge development and operations for efficient software delivery",
      salary_range := "$95,000 - $145,000", growth := "Very High", experience_level := "2-5 years" }),
   ("UX Designer",
    { skills := ["Figma", "User Research", "Prototyping", "Design Thinking", "HTML/CSS", "Wireframing", "Usability Testing"],
      description := "Create intuitive and user-friendly digital experiences",
      salary_range := "$70,000 - $120,000", growth := "High", experience_level := "1-4 years" }),
   ("Cloud Architect",
    { skills := ["AWS", "Azure", "GCP", "Cloud Security", "Architecture", "Infrastructure", "Kubernetes"],
      description := "Design and manage cloud infrastructure solutions",
      salary_range := "$110,000 - $170,000", growth := "Very High", experience_level := "5-10 years" }),
   ("AI Engineer",
    { skills := ["Python", "TensorFlow", "PyTorch", "MLOps", "Deep Learning", "Computer Vision", "NLP"],
      description := "Build and deploy AI/ML models at scale",
      salary_range := "$100,000 - $160,000", growth := "Very High", experience_level := "2-5 years" }),
   ("Business Analyst",
    { skills := ["SQL", "Excel", "Data Analysis", "Requirements Gathering", "Stakeholder Management", "Power BI", "Documentation"],
      description := "Analyze business processes and recommend data-driven solutions",
      salary_range := "$65,000 - $110,000", growth := "Medium", experience_level := "1-4 years" }),
   ("Cybersecurity Specialist",
    { skills := ["Network Security", "Ethical Hacking", "SIEM", "Compliance", "Risk Assessment", "Penetration Testing", "Firewalls"],
      description := "Protect organizations from cyber threats and vulnerabilities",
      salary_range := "$85,000 - $140,000", growth := "Very High", experience_level := "2-5 years" }),
   ("Data Engineer",
    { skills := ["Python", "SQL", "ETL", "Big Data", "Spark", "Hadoop", "Data Warehousing"],
      description := "Build and maintain data pipelines and infrastructure",
      salary_range := "$90,000 - $145,000", growth := "Very High", experience_level := "2-5 years" })]

/-- `self.career_names = list(self.career_database.keys())`. -/
def careerNames : List String := careerDB.map (fun p => p.1)

/-! ### Gap analysis (`analyze_skill_gap`) -/

/-- The result dict of `analyze_skill_gap`.  `match_percentage` is the
Python float idealised as an exact rational. -/
structure GapReport where
  matched_skills : List String
  missing_skills : List String
  match_percentage : ℚ
  total_required : ℕ
  total_matched : ℕ
deriving DecidableEq

/-- Normalisation `s.lower().strip()` applied to each user skill. -/
def normSkill (s : String) : String := pyStrip (pyLower s)

/-- `user_skills_set = set([s.lower().strip() for s in user_skills])`.
A Python set is modelled by a deduplicated list; every use below
(membership test, existential scan) is independent of enumeration order. -/
def userSkillsSet (user : List String) : List String := (user.map normSkill).dedup

/-- The per-required-skill test of `analyze_skill_gap`: exact membership of
`skill_lower` in the user set, else the bidirectional substring scan
(`user_skill in skill_lower or skill_lower in user_skill`).  The skill is
appended to `matched_skills` exactly when this disjunction holds. -/
def skillHit (user : List String) (skillLower : String) : Bool :=
  (userSkillsSet user).contains skillLower ||
    (userSkillsSet user).any (fun u => pyIn u skillLower || pyIn skillLower u)

/-- `reqIter` enumerates the Python set `set(skills)`: no repetition, same
elements.  (Note the code also binds `required_skills_lower`, which is never
used afterwards; it is omitted here.) -/
def IterOK (skills reqIter : List String) : Prop :=
  reqIter.Nodup ∧ (∀ s ∈ reqIter, s ∈ skills) ∧ (∀ s ∈ skills, s ∈ reqIter)

instance (skills reqIter : List String) : Decidable (IterOK skills reqIter) := by
  unfold IterOK; exact instDecidableAnd

/-- `analyze_skill_gap(user_skills, target_career)`.  An unknown career makes
the Python function return the empty dict `{}`, modelled as `none`.
`reqIter` is the (hash-dependent, unspecified) iteration order of the set
`required_skills`; the loop appending to `matched_skills` / `missing_skills`
is rendered as the two filters over that enumeration.  The percentage
mirrors `(len(matched)/len(required))*100 if required_skills else 0`. -/
def analyze_skill_gap (user : List String) (target : String) (reqIter : List String) :
    Option GapReport :=
  match careerDB.lookup target with
  | none => none
  | some _ =>
    let matched := reqIter.filter (fun s => skillHit user (pyLower s))
    let missing := reqIter.filter (fun s => ! skillHit user (pyLower s))
    some { matched_skills := matched
           missing_skills := missing
           match_percentage :=
             if reqIter.isEmpty then 0
             else ((matched.length : ℚ) / (reqIter.length : ℚ)) * 100
           total_required := reqIter.length
           total_matched := matched.length }

/-- A concrete admissible enumeration of the required-skill set of each career
(the declared order), used to instantiate witnesses. -/
def declaredIter (c : String) : List String :=
  match careerDB.lookup c with
  | some info => info.skills
  | none => []

/-- Default report used only to project components out of an `Option`. -/
def gapDefault : GapReport := ⟨[], [], 0, 0, 0⟩

/-! ### Learning path (`get_learning_path`) -/

/-- A value of the static `skill_priority` table. -/
structure PriorityInfo where
  level : String
  resources : List String
  time : String
deriving DecidableEq

/-- The `skill_priority` dict, keyed by skill name (case sensitive). -/
def skillPriority : List (String × PriorityInfo) :=
  [("Python", { level := "Beginner-Intermediate", resources := ["Python.org", "Real Python", "Codecademy"], time := "2-3 months" }),
   ("Machine Learning", { level := "Intermediate-Advanced", resources := ["Coursera ML Course", "Fast.ai", "Kaggle"], time := "3-4 months" }),
   ("SQL", { level := "Beginner", resources := ["SQLBolt", "Mode Analytics", "LeetCode"], time := "1-2 months" }),
   ("Cloud Computing", { level := "Intermediate", resources := ["AWS Training", "Cloud Academy", "A Cloud Guru"], time := "2-3 months" }),
   ("Data Visualization", { level := "Beginner-Intermediate", resources := ["Tableau Public", "DataCamp", "Storytelling with Data"], time := "1-2 months" })]

/-- One entry of `learning_path`: the dict `{"skill": skill, **bundle}`. -/
structure LearnBundle where
  skill : String
  level : String
  resources : List String
  time : String
deriving DecidableEq

/-- The dict returned by `get_learning_path`. -/
structure LearningPlan where
  career : String
  skills_to_learn : List LearnBundle
  estimated_time : String
deriving DecidableEq

/-- `get_learning_path(missing_skills, career)`: per-skill table lookup with
the generic fallback bundle, and the aggregate f-string
`f"{len*2}-{len*3} months"`.  Note the function never consults the career
catalog. -/
def get_learning_path (missing : List String) (career : String) : LearningPlan :=
  { career := career
    skills_to_learn := missing.map (fun s =>
      match skillPriority.lookup s with
      | some p => { skill := s, level := p.level, resources := p.resources, time := p.time }
      | none => { skill := s, level := "Intermediate",
                  resources := ["Online Courses", "Documentation", "Practice Projects"],
                  time := "2-3 months" })
    estimated_time :=
      Nat.repr (missing.length * 2) ++ "-" ++ Nat.repr (missing.length * 3) ++ " months" }

/-- Default catalog entry, used only to project `Option CareerInfo` values. -/
def infoDefault : CareerInfo := ⟨[], "", "", "", ""⟩

/-! ### Recommendation (`recommend_careers`)

The TF-IDF pipeline follows `TfidfVectorizer` with default settings and
`cosine_similarity`:

* tokens are maximal runs of word characters of length at least two,
  lower-cased (the default token pattern);
* the vocabulary is the sorted set of corpus tokens;
* the weight of token `t` in a document is `count * idf(df t)` with the
  smoothed `idf d = log((1 + nDocs)/(1 + d)) + 1`, and each row is
  L2-normalised (rows of norm zero are left untouched, as in
  `sklearn.preprocessing.normalize`);
* `cosine_similarity` L2-normalises both sides again and takes dot products;
* `np.argsort` uses introsort, which on arrays shorter than 16 elements
  (the catalog has 10) runs a stable ascending insertion sort; the code then
  reverses it and applies the Python slice `[:top_n]`.

Weights involve `log` and `sqrt`, so this part of the embedding lives in
`ℝ` and is marked `noncomputable`; the token/count layer stays computable.
-/

/-- A word character of the default token pattern (letters, digits, underscore). -/
def isWordChar (c : Char) : Bool := c.isAlphanum || c == '_'

/-- Emit the accumulated (reversed) run if it has length at least 2. -/
def flushTok (cur : List Char) : List String :=
  if 2 ≤ cur.length then [⟨cur.reverse⟩] else []

/-- Scan characters, collecting maximal word-character runs of length >= 2. -/
def tokArr : List Char → List Char → List String
  | [], cur => flushTok cur
  | c :: rest, cur =>
    if isWordChar c then tokArr rest (c :: cur) else flushTok cur ++ tokArr rest []

/-- Tokenisation of `TfidfVectorizer` (lowercase, then findall of the default
token pattern). -/
def pyTokens (s : String) : List String := tokArr (s.data.map Char.toLower) []

/-- Python `" ".join(...)`. -/
def joinTexts : List String → String
  | [] => ""
  | [s] => s
  | s :: r => s ++ " " ++ joinTexts r

/-- The corpus built by `_build_model`: one space-joined skill document per
career, in catalog order. -/
def corpusDocs : List String := careerDB.map (fun p => joinTexts p.2.skills)

/-- Code-point lexicographic comparison of char lists (Python string order). -/
def charListLe : List Char → List Char → Bool
  | [], _ => true
  | _ :: _, [] => false
  | a :: as, b :: bs => if a == b then charListLe as bs else decide (a < b)

/-- Python string order, as a proposition. -/
def strLe (a b : String) : Prop := charListLe a.data b.data = true

instance : DecidableRel strLe := fun a b => by unfold strLe; infer_instance

/-- The fitted vocabulary: all distinct corpus tokens, sorted
(`TfidfVectorizer` sorts its vocabulary alphabetically). -/
def vocab : List String :=
  List.insertionSort strLe (corpusDocs.flatMap pyTokens).dedup

/-- Document frequency of a token. -/
def df (t : String) : ℕ := (corpusDocs.filter (fun d => (pyTokens d).contains t)).length

/-- Raw token counts of a text along the vocabulary. -/
def countsVec (text : String) : List ℕ := vocab.map (fun t => (pyTokens text).count t)

/-- Document frequencies along the vocabulary. -/
def dfVec : List ℕ := vocab.map df

/-- Number of fitted documents. -/
def nDocs : ℕ := corpusDocs.length

/-- Smoothed inverse document frequency of `TfidfVectorizer`. -/
noncomputable def idf (d : ℕ) : ℝ := Real.log ((1 + (nDocs : ℝ)) / (1 + (d : ℝ))) + 1

/-- Unnormalised TF-IDF row of a text. -/
noncomputable def tfidfRaw (text : String) : List ℝ :=
  List.zipWith (fun (c : ℕ) (d : ℕ) => (c : ℝ) * idf d) (countsVec text) dfVec

/-- Euclidean norm of a row. -/
noncomputable def l2norm (v : List ℝ) : ℝ := Real.sqrt ((v.map (fun x => x ^ 2)).sum)

/-- `sklearn.preprocessing.normalize` on one row: rows of norm zero are
returned unchanged (norms equal to zero are replaced by one). -/
noncomputable def normRow (v : List ℝ) : List ℝ :=
  if l2norm v = 0 then v else v.map (fun x => x / l2norm v)

/-- `vectorizer.transform([text])`: counts, idf weighting, L2 normalisation. -/
noncomputable def transform (text : String) : List ℝ := normRow (tfidfRaw text)

/-- `self.skill_matrix = vectorizer.fit_transform(career_texts)`. -/
noncomputable def skillMatrix : List (List ℝ) := corpusDocs.map transform

/-- Dot product of two rows. -/
noncomputable def dotL (a b : List ℝ) : ℝ := (List.zipWith (fun x y => x * y) a b).sum

/-- `cosine_similarity(user_vector, self.skill_matrix)[0]`. -/
noncomputable def simsList (user : List String) : List ℝ :=
  skillMatrix.map (fun row => dotL (normRow (transform (joinTexts user))) (normRow row))

/-- Comparison of similarity values at two indices, the order used by
`np.argsort`. -/
def leRel (v : List ℝ) (i j : ℕ) : Prop := v.getD i 0 ≤ v.getD j 0

noncomputable instance (v : List ℝ) : DecidableRel (leRel v) :=
  fun _ _ => Real.decidableLE _ _

/-- `np.argsort(similarities)`: ascending stable sort of the index range
(introsort degenerates to stable insertion sort below 16 elements, and the
catalog has 10). -/
noncomputable def argsortAsc (v : List ℝ) : List ℕ :=
  List.insertionSort (leRel v) (List.range v.length)

/-- Python slice `l[:n]`, including the negative-stop semantics. -/
def pySliceTake {α : Type} (l : List α) (n : ℤ) : List α :=
  if 0 ≤ n then l.take n.toNat else l.take ((l.length : ℤ) + n).toNat

/-- `top_indices = np.argsort(similarities)[::-1][:top_n]`. -/
noncomputable def topIndices (user : List String) (n : ℤ) : List ℕ :=
  pySliceTake (argsortAsc (simsList user)).reverse n

/-- One tuple `(career_name, similarity_score, gap_analysis, career_info)` of
the recommendation list.  The catalog entry and the gap report are looked up
by name; both lookups always succeed for indices produced by `topIndices`. -/
structure RecEntry where
  career : String
  score : ℝ
  gap : Option GapReport
  info : Option CareerInfo

/-- `recommend_careers(user_skills, top_n)`.  `setIter` supplies the
set-enumeration order used inside the nested `analyze_skill_gap` call
(see the module comment). -/
noncomputable def recommend_careers (setIter : String → List String)
    (user : List String) (n : ℤ) : List RecEntry :=
  (topIndices user n).map (fun idx =>
    { career := careerNames.getD idx ""
      score := (simsList user).getD idx 0 * 100
      gap := analyze_skill_gap user (careerNames.getD idx "") (setIter (careerNames.getD idx ""))
      info := careerDB.lookup (careerNames.getD idx "") })

/-- Output order of a stable ascending argsort: values ascend, and equal
values keep ascending index order. -/
def rankRel (v : List ℝ) (i j : ℕ) : Prop :=
  v.getD i 0 < v.getD j 0 ∨ (v.getD i 0 = v.getD j 0 ∧ i < j)

/-! ### Helper lemmas: gap analysis -/

theorem lookup_mem {α β : Type} [BEq α] [LawfulBEq α] (l : List (α × β)) (a : α) (b : β)
    (h : l.lookup a = some b) : (a, b) ∈ l := by
  induction l with
  | nil => simp [List.lookup] at h
  | cons p t ih =>
    rw [List.lookup] at h
    cases hk : (a == p.1) with
    | true =>
      rw [hk] at h
      have ha : a = p.1 := eq_of_beq hk
      have hb : b = p.2 := by cases h; rfl
      subst ha; subst hb
      exact List.mem_cons_self _ _
    | false =>
      rw [hk] at h
      exact List.mem_cons_of_mem _ (ih h)

theorem skillHit_iff (user : List String) (sl : String) :
    skillHit user sl = true ↔
      ((∃ u ∈ user, normSkill u = sl) ∨
       (∃ u ∈ user, pyIn (normSkill u) sl = true ∨ pyIn sl (normSkill u) = true)) := by
  unfold skillHit userSkillsSet
  simp [List.any_eq_true, List.mem_dedup]

theorem analyze_eq_some (user : List String) (target : String) (info : CareerInfo)
    (reqIter : List String) (h : careerDB.lookup target = some info) :
    analyze_skill_gap user target reqIter =
      some { matched_skills := reqIter.filter (fun s => skillHit user (pyLower s))
             missing_skills := reqIter.filter (fun s => ! skillHit user (pyLower s))
             match_percentage :=
               if reqIter.isEmpty then 0
               else (((reqIter.filter (fun s => skillHit user (pyLower s))).length : ℚ) /
                      (reqIter.length : ℚ)) * 100
             total_required := reqIter.length
             total_matched := (reqIter.filter (fun s => skillHit user (pyLower s))).length } := by
  unfold analyze_skill_gap
  rw [h]

theorem db_skills_trim : ∀ p ∈ careerDB, ∀ s ∈ p.2.skills, pyStrip (pyLower s) = pyLower s := by
  decide

theorem substrAt_nil (l : List Char) : substrAt [] l = true := by
  induction l with
  | nil => rfl
  | cons c t ih => simp [substrAt, startsWithL, ih]

theorem length_filter_mono {α : Type} (l : List α) (p q : α → Bool)
    (h : ∀ a ∈ l, p a = true → q a = true) :
    (l.filter p).length ≤ (l.filter q).length := by
  induction l with
  | nil => simp
  | cons a t ih =>
    have ht : ∀ x ∈ t, p x = true → q x = true := fun x hx => h x (List.mem_cons_of_mem _ hx)
    have ih' := ih ht
    by_cases hp : p a = true
    · have hq := h a (List.mem_cons_self _ _) hp
      simp only [List.filter_cons, hp, hq, if_true, List.length_cons]
      omega
    · simp only [List.filter_cons, Bool.not_eq_true] at hp ⊢
      rw [hp]
      cases hq : q a <;> simp <;> omega

theorem or_iff_or_not_and (A B : Prop) : A ∨ B ↔ A ∨ (¬ A ∧ B) := by
  by_cases hA : A <;> simp [hA]

theorem analyze_mem_matched (user : List String) (career : String) (info : CareerInfo)
    (reqIter : List String) (rep : GapReport)
    (hdb : careerDB.lookup career = some info)
    (hrep : analyze_skill_gap user career reqIter = some rep) (r : String) :
    (r ∈ rep.matched_skills ↔ r ∈ reqIter ∧ skillHit user (pyLower r) = true) ∧
    (r ∈ rep.missing_skills ↔ r ∈ reqIter ∧ ¬ skillHit user (pyLower r) = true) := by
  rw [analyze_eq_some user career info reqIter hdb] at hrep
  cases hrep
  constructor
  · simp [List.mem_filter]
  · simp [List.mem_filter]

/-- Claim C1: for every user skill list and every career in the catalog, a
required skill is matched iff its normalised form equals some normalised user
skill, or, failing that, some normalised user skill and the normalised
required skill stand in the substring relation (either direction); otherwise
it is missing. -/
theorem c1_gap_match_iff (user : List String) (career : String) (info : CareerInfo)
    (reqIter : List String) (rep : GapReport)
    (hdb : careerDB.lookup career = some info)
    (hiter : IterOK info.skills reqIter)
    (hrep : analyze_skill_gap user career reqIter = some rep)
    (r : String) (hr : r ∈ info.skills) :
    (r ∈ rep.matched_skills ↔
      ((∃ u ∈ user, normSkill u = normSkill r) ∨
       ((¬ ∃ u ∈ user, normSkill u = normSkill r) ∧
        ∃ u ∈ user, pyIn (normSkill u) (normSkill r) = true ∨
                    pyIn (normSkill r) (normSkill u) = true))) ∧
    (r ∈ rep.missing_skills ↔
      ¬ ((∃ u ∈ user, normSkill u = normSkill r) ∨
         ((¬ ∃ u ∈ user, normSkill u = normSkill r) ∧
          ∃ u ∈ user, pyIn (normSkill u) (normSkill r) = true ∨
                      pyIn (normSkill r) (normSkill u) = true))) := by
  have hmem : r ∈ reqIter := hiter.2.2 r hr
  have htrim : normSkill r = pyLower r := by
    have hp : (career, info) ∈ careerDB := lookup_mem _ _ _ hdb
    exact db_skills_trim (career, info) hp r hr
  have hchar := skillHit_iff user (pyLower r)
  have hms := analyze_mem_matched user career info reqIter rep hdb hrep r
  constructor
  · rw [hms.1, htrim, hchar, or_iff_or_not_and]
    exact ⟨fun h => h.2, fun h => ⟨hmem, h⟩⟩
  · rw [hms.2, htrim, hchar, ← or_iff_or_not_and]
    exact ⟨fun h => h.2, fun h => ⟨hmem, h⟩⟩

theorem c1_witness :
    "Python" ∈ ((analyze_skill_gap ["  PYTHON "] "Data Scientist"
        (declaredIter "Data Scientist")).getD gapDefault).matched_skills ↔
      ((∃ u ∈ ["  PYTHON "], normSkill u = normSkill "Python") ∨
       ((¬ ∃ u ∈ ["  PYTHON "], normSkill u = normSkill "Python") ∧
        ∃ u ∈ ["  PYTHON "], pyIn (normSkill u) (normSkill "Python") = true ∨
                    pyIn (normSkill "Python") (normSkill u) = true)) :=
  (c1_gap_match_iff ["  PYTHON "] "Data Scientist"
    ((careerDB.lookup "Data Scientist").getD infoDefault)
    (declaredIter "Data Scientist")
    ((analyze_skill_gap ["  PYTHON "] "Data Scientist"
        (declaredIter "Data Scientist")).getD gapDefault)
    rfl (by decide) rfl "Python" (by decide)).1

/-- Claim C2 (amended): the two lists of a gap report partition the
required-skill set and the counts and percentage are as specified; the lists
appear in the set-enumeration order `reqIter` used by the runtime, which need
not be the declared order of the career. -/
theorem c2_gap_partition (user : List String) (career : String) (info : CareerInfo)
    (reqIter : List String) (rep : GapReport)
    (hdb : careerDB.lookup career = some info)
    (hiter : IterOK info.skills reqIter)
    (hrep : analyze_skill_gap user career reqIter = some rep) :
    List.Sublist rep.matched_skills reqIter ∧
    List.Sublist rep.missing_skills reqIter ∧
    (∀ s ∈ rep.matched_skills, s ∈ info.skills) ∧
    (∀ s ∈ rep.missing_skills, s ∈ info.skills) ∧
    List.Perm (rep.matched_skills ++ rep.missing_skills) reqIter ∧
    (∀ s, ¬ (s ∈ rep.matched_skills ∧ s ∈ rep.missing_skills)) ∧
    rep.matched_skills.length + rep.missing_skills.length = rep.total_required ∧
    rep.total_required = reqIter.length ∧
    rep.total_matched = rep.matched_skills.length ∧
    rep.match_percentage =
      (if rep.total_required = 0 then 0
       else ((rep.total_matched : ℚ) / (rep.total_required : ℚ)) * 100) := by
  rw [analyze_eq_some user career info reqIter hdb] at hrep
  cases hrep
  dsimp only
  refine ⟨List.filter_sublist _, List.filter_sublist _, ?_, ?_, ?_, ?_, ?_, rfl, rfl, ?_⟩
  · intro s hs
    exact hiter.2.1 s (List.mem_filter.mp hs).1
  · intro s hs
    exact hiter.2.1 s (List.mem_filter.mp hs).1
  · exact List.filter_append_perm _ reqIter
  · intro s hs
    have h1 := (List.mem_filter.mp hs.1).2
    have h2 := (List.mem_filter.mp hs.2).2
    simp at h2
    rw [h2] at h1
    cases h1
  · have := List.length_eq_length_filter_add (l := reqIter)
      (fun s => skillHit user (pyLower s))
    omega
  · cases hq : reqIter with
    | nil => simp
    | cons a t => simp

theorem c2_witness :
    List.Perm
      (((analyze_skill_gap ["python", "sql"] "Data Scientist"
          (declaredIter "Data Scientist")).getD gapDefault).matched_skills ++
       ((analyze_skill_gap ["python", "sql"] "Data Scientist"
          (declaredIter "Data Scientist")).getD gapDefault).missing_skills)
      (declaredIter "Data Scientist") :=
  (c2_gap_partition ["python", "sql"] "Data Scientist"
    ((careerDB.lookup "Data Scientist").getD infoDefault)
    (declaredIter "Data Scientist")
    ((analyze_skill_gap ["python", "sql"] "Data Scientist"
        (declaredIter "Data Scientist")).getD gapDefault)
    rfl (by decide) rfl).2.2.2.2.1

/-- Claim C2 counterexample: the code iterates over the Python set
`set(required_skills)`, whose enumeration order is hash-dependent; under the
admissible enumeration that reverses the declared order, the matched list of
`analyze_skill_gap(["python","sql"], "Data Scientist")` comes out as
`["SQL", "Python"]`, which is not a subsequence of the declared order, so the
lists are not "in the declared order of the career" as claimed. -/
theorem c2_cex :
    IterOK (declaredIter "Data Scientist") (declaredIter "Data Scientist").reverse ∧
    ((analyze_skill_gap ["python", "sql"] "Data Scientist"
        (declaredIter "Data Scientist").reverse).getD gapDefault).matched_skills =
      ["SQL", "Python"] ∧
    ¬ List.Sublist ["SQL", "Python"] (declaredIter "Data Scientist") := by
  refine ⟨by decide, by decide, by decide⟩

/-- Claim C4 (amended): the code signals an unknown career not with an
`UnknownCareer` error but by returning the empty dict from gap analysis,
while learning-path composition never consults the catalog at all and
returns a complete plan for any career name. -/
theorem c4_no_error (user : List String) (career : String) (reqIter : List String)
    (missing : List String) (h : careerDB.lookup career = none) :
    analyze_skill_gap user career reqIter = none ∧
    (get_learning_path missing career).career = career ∧
    (get_learning_path missing career).skills_to_learn.length = missing.length := by
  refine ⟨?_, rfl, by simp [get_learning_path]⟩
  unfold analyze_skill_gap
  rw [h]

theorem c4_witness :
    analyze_skill_gap ["Python"] "Astronaut" [] = none :=
  (c4_no_error ["Python"] "Astronaut" [] ["Quantum"] (by decide)).1

/-- Claim C4 counterexample: with the unknown career name "Astronaut",
gap analysis returns the empty dict (no exception of any kind exists in the
code), and `get_learning_path` happily returns a full learning plan although
"Astronaut" is absent from the catalog. -/
theorem c4_cex :
    analyze_skill_gap ["Python"] "Astronaut" ["Physics"] = none ∧
    get_learning_path ["Quantum"] "Astronaut" =
      { career := "Astronaut"
        skills_to_learn :=
          [⟨"Quantum", "Intermediate",
            ["Online Courses", "Documentation", "Practice Projects"], "2-3 months"⟩]
        estimated_time := "2-3 months" } := by
  exact ⟨by decide, by decide⟩

theorem skillHit_mono (u1 u2 : List String) (hsub : ∀ s ∈ u1, s ∈ u2) (sl : String)
    (h : skillHit u1 sl = true) : skillHit u2 sl = true := by
  rw [skillHit_iff] at h ⊢
  rcases h with ⟨u, hu, he⟩ | ⟨u, hu, he⟩
  · exact Or.inl ⟨u, hsub u hu, he⟩
  · exact Or.inr ⟨u, hsub u hu, he⟩

/-- Claim C8: enlarging the user skill list never lowers the match
percentage and never turns a matched required skill into a missing one
(stated over any admissible set enumerations for the two calls). -/
theorem c8_monotone (u1 u2 : List String) (career : String) (info : CareerInfo)
    (i1 i2 : List String) (rep1 rep2 : GapReport)
    (hdb : careerDB.lookup career = some info)
    (h1 : IterOK info.skills i1) (h2 : IterOK info.skills i2)
    (hsub : ∀ s ∈ u1, s ∈ u2)
    (hr1 : analyze_skill_gap u1 career i1 = some rep1)
    (hr2 : analyze_skill_gap u2 career i2 = some rep2) :
    rep1.match_percentage ≤ rep2.match_percentage ∧
    (∀ s ∈ rep1.matched_skills, s ∈ rep2.matched_skills ∧ s ∉ rep2.missing_skills) := by
  rw [analyze_eq_some u1 career info i1 hdb] at hr1
  rw [analyze_eq_some u2 career info i2 hdb] at hr2
  cases hr1
  cases hr2
  dsimp only
  have hperm : List.Perm i1 i2 := by
    rw [List.perm_ext_iff_of_nodup h1.1 h2.1]
    intro a
    exact ⟨fun ha => h2.2.2 a (h1.2.1 a ha), fun ha => h1.2.2 a (h2.2.1 a ha)⟩
  have hlen : i1.length = i2.length := hperm.length_eq
  have hm : (i1.filter (fun s => skillHit u1 (pyLower s))).length ≤
      (i2.filter (fun s => skillHit u2 (pyLower s))).length := by
    have e1 : (i1.filter (fun s => skillHit u1 (pyLower s))).length =
        (i2.filter (fun s => skillHit u1 (pyLower s))).length :=
      (hperm.filter _).length_eq
    rw [e1]
    exact length_filter_mono i2 _ _ (fun a _ ha => skillHit_mono u1 u2 hsub _ ha)
  constructor
  · have hee : i1.isEmpty = i2.isEmpty := by
      apply Bool.eq_iff_iff.mpr
      simp only [List.isEmpty_iff, ← List.length_eq_zero, hlen]
    rw [← hee]
    by_cases he : i1.isEmpty = true
    · simp [he]
    · rw [if_neg he, if_neg he]
      have hpos : 0 < (i1.length : ℚ) := by
        have : i1 ≠ [] := by
          intro hcon
          rw [hcon] at he
          exact he rfl
        have : 0 < i1.length := List.length_pos.mpr this
        exact_mod_cast this
      apply mul_le_mul_of_nonneg_right _ (by norm_num : (0:ℚ) ≤ 100)
      rw [hlen] at hpos ⊢
      have hc : ((i1.filter (fun s => skillHit u1 (pyLower s))).length : ℚ) ≤
          ((i2.filter (fun s => skillHit u2 (pyLower s))).length : ℚ) := by
        exact_mod_cast hm
      gcongr
  · intro s hs
    have hmem := List.mem_filter.mp hs
    have hs2 : s ∈ i2 := h2.2.2 s (h1.2.1 s hmem.1)
    have hhit2 := skillHit_mono u1 u2 hsub _ hmem.2
    refine ⟨List.mem_filter.mpr ⟨hs2, hhit2⟩, ?_⟩
    intro hcon
    have hnot := (List.mem_filter.mp hcon).2
    simp only [Bool.not_eq_true'] at hnot
    rw [hnot] at hhit2
    cases hhit2

theorem c8_witness :
    ((analyze_skill_gap ["SQL"] "Data Scientist"
        (declaredIter "Data Scientist")).getD gapDefault).match_percentage ≤
    ((analyze_skill_gap ["SQL", "Python"] "Data Scientist"
        (declaredIter "Data Scientist")).getD gapDefault).match_percentage :=
  (c8_monotone ["SQL"] ["SQL", "Python"] "Data Scientist"
    ((careerDB.lookup "Data Scientist").getD infoDefault)
    (declaredIter "Data Scientist") (declaredIter "Data Scientist")
    ((analyze_skill_gap ["SQL"] "Data Scientist"
        (declaredIter "Data Scientist")).getD gapDefault)
    ((analyze_skill_gap ["SQL", "Python"] "Data Scientist"
        (declaredIter "Data Scientist")).getD gapDefault)
    rfl (by decide) (by decide) (by decide) rfl rfl).1

/-- Claim C9: the learning plan holds one bundle per missing skill in input
order; a case-sensitive hit in the priority table yields that level of that entry,
resources and time, any other skill gets the default bundle; the aggregate
estimate is the string "2n-3n months" for n missing skills. -/
theorem c9_learning_path (missing : List String) (career : String) :
    (get_learning_path missing career).career = career ∧
    List.Forall₂ (fun s e => e.skill = s ∧
        (∀ p, skillPriority.lookup s = some p →
          e.level = p.level ∧ e.resources = p.resources ∧ e.time = p.time) ∧
        (skillPriority.lookup s = none → e.level = "Intermediate" ∧
          e.resources = ["Online Courses", "Documentation", "Practice Projects"] ∧
          e.time = "2-3 months"))
      missing (get_learning_path missing career).skills_to_learn ∧
    (get_learning_path missing career).estimated_time =
      Nat.repr (missing.length * 2) ++ "-" ++ Nat.repr (missing.length * 3) ++ " months" := by
  refine ⟨rfl, ?_, rfl⟩
  unfold get_learning_path
  dsimp only
  induction missing with
  | nil => exact List.Forall₂.nil
  | cons s t ih =>
    rw [List.map_cons]
    refine List.Forall₂.cons ?_ ih
    cases h : skillPriority.lookup s with
    | none => simp [h]
    | some p => simp [h]

theorem c9_witness :
    (get_learning_path ["Python", "Quantum"] "Data Scientist").estimated_time =
      Nat.repr (["Python", "Quantum"].length * 2) ++ "-" ++
      Nat.repr (["Python", "Quantum"].length * 3) ++ " months" :=
  (c9_learning_path ["Python", "Quantum"] "Data Scientist").2.2

theorem pyIn_empty_left (s : String) : pyIn "" s = true := substrAt_nil s.data

/-- Claim C10: a user skill that is empty or whitespace-only normalises to
the empty string, which is a substring of every required skill, so the fuzzy
fallback matches everything: no missing skills, a 100 percent match, and
total matched equal to total required. -/
theorem c10_blank_matches_all (user : List String) (career : String) (info : CareerInfo)
    (reqIter : List String) (rep : GapReport)
    (hdb : careerDB.lookup career = some info)
    (hiter : IterOK info.skills reqIter)
    (hne : info.skills ≠ [])
    (hblank : ∃ s ∈ user, normSkill s = "")
    (hrep : analyze_skill_gap user career reqIter = some rep) :
    rep.matched_skills = reqIter ∧ rep.missing_skills = [] ∧
    rep.match_percentage = 100 ∧ rep.total_matched = rep.total_required := by
  obtain ⟨s0, hs0, hnorm⟩ := hblank
  have hhit : ∀ r : String, skillHit user (pyLower r) = true := by
    intro r
    rw [skillHit_iff]
    exact Or.inr ⟨s0, hs0, Or.inl (by rw [hnorm]; exact pyIn_empty_left _)⟩
  have hreqne : reqIter ≠ [] := by
    intro hcon
    cases hsk : info.skills with
    | nil => exact hne hsk
    | cons a t =>
      have : a ∈ reqIter := hiter.2.2 a (by rw [hsk]; exact List.mem_cons_self _ _)
      rw [hcon] at this
      cases this
  rw [analyze_eq_some user career info reqIter hdb] at hrep
  cases hrep
  dsimp only
  have hmatched : reqIter.filter (fun s => skillHit user (pyLower s)) = reqIter :=
    List.filter_eq_self.mpr (fun a _ => hhit a)
  have hmissing : reqIter.filter (fun s => ! skillHit user (pyLower s)) = [] :=
    List.filter_eq_nil_iff.mpr (fun a _ => by simp [hhit a])
  refine ⟨hmatched, hmissing, ?_, by rw [hmatched]⟩
  have hlen : (reqIter.length : ℚ) ≠ 0 := by
    have : 0 < reqIter.length := List.length_pos.mpr hreqne
    exact_mod_cast Nat.pos_iff_ne_zero.mp this
  have hempty : reqIter.isEmpty = false := by
    cases reqIter with
    | nil => exact absurd rfl hreqne
    | cons a t => rfl
  rw [hempty, hmatched]
  simp [div_self hlen]

theorem c10_witness :
    ((analyze_skill_gap ["   "] "Data Scientist"
        (declaredIter "Data Scientist")).getD gapDefault).match_percentage = 100 :=
  (c10_blank_matches_all ["   "] "Data Scientist"
    ((careerDB.lookup "Data Scientist").getD infoDefault)
    (declaredIter "Data Scientist")
    ((analyze_skill_gap ["   "] "Data Scientist"
        (declaredIter "Data Scientist")).getD gapDefault)
    rfl (by decide) (by decide) ⟨"   ", by decide, by decide⟩ rfl).2.2.1

/-! ### Helper lemmas: ranking order -/

theorem careerDB_length : careerDB.length = 10 := rfl

theorem simsList_length (user : List String) : (simsList user).length = 10 := by
  unfold simsList skillMatrix corpusDocs
  simp [careerDB]

theorem argsortAsc_length (v : List ℝ) : (argsortAsc v).length = v.length := by
  unfold argsortAsc
  rw [List.length_insertionSort, List.length_range]

theorem argsortAsc_perm (v : List ℝ) : List.Perm (argsortAsc v) (List.range v.length) :=
  List.perm_insertionSort _ _

theorem pairwise_rank_orderedInsert (v : List ℝ) (x : ℕ) (L : List ℕ)
    (hx : ∀ y ∈ L, v.getD x 0 = v.getD y 0 → x < y)
    (hL : L.Pairwise (rankRel v)) :
    (List.orderedInsert (leRel v) x L).Pairwise (rankRel v) := by
  induction L with
  | nil => exact List.pairwise_singleton _ _
  | cons b t ih =>
    rw [List.orderedInsert]
    by_cases hle : leRel v x b
    · rw [if_pos hle]
      refine List.Pairwise.cons ?_ hL
      intro y hy
      rcases List.mem_cons.mp hy with rfl | hyt
      · rcases lt_or_eq_of_le hle with hlt | heq
        · exact Or.inl hlt
        · exact Or.inr ⟨heq, hx y (List.mem_cons_self _ _) heq⟩
      · have hby := (List.pairwise_cons.mp hL).1 y hyt
        have hbyle : v.getD b 0 ≤ v.getD y 0 := by
          rcases hby with h | ⟨h, -⟩
          · exact le_of_lt h
          · exact le_of_eq h
        have hxy : v.getD x 0 ≤ v.getD y 0 := le_trans hle hbyle
        rcases lt_or_eq_of_le hxy with hlt | heq
        · exact Or.inl hlt
        · exact Or.inr ⟨heq, hx y (List.mem_cons_of_mem _ hyt) heq⟩
    · rw [if_neg hle]
      have hbx : v.getD b 0 < v.getD x 0 := not_le.mp hle
      obtain ⟨hbt, ht⟩ := List.pairwise_cons.mp hL
      refine List.Pairwise.cons ?_ (ih (fun y hy he => hx y (List.mem_cons_of_mem _ hy) he) ht)
      intro y hy
      rcases (List.mem_orderedInsert (leRel v)).mp hy with rfl | hyt
      · exact Or.inl hbx
      · exact hbt y hyt

theorem pairwise_rank_insertionSort (v : List ℝ) (L : List ℕ)
    (hL : L.Pairwise (fun i j => i < j)) :
    (List.insertionSort (leRel v) L).Pairwise (rankRel v) := by
  induction L with
  | nil => exact List.Pairwise.nil
  | cons x t ih =>
    rw [List.insertionSort]
    obtain ⟨hxt, ht⟩ := List.pairwise_cons.mp hL
    apply pairwise_rank_orderedInsert
    · intro y hy _
      exact hxt y ((List.perm_insertionSort (leRel v) t).mem_iff.mp hy)
    · exact ih ht

theorem argsortAsc_pairwise (v : List ℝ) : (argsortAsc v).Pairwise (rankRel v) :=
  pairwise_rank_insertionSort v _ (List.pairwise_lt_range _)

theorem topIndices_sublist (user : List String) (n : ℤ) :
    List.Sublist (topIndices user n) (argsortAsc (simsList user)).reverse := by
  unfold topIndices pySliceTake
  by_cases h : 0 ≤ n
  · rw [if_pos h]
    exact List.take_sublist _ _
  · rw [if_neg h]
    exact List.take_sublist _ _

theorem topIndices_pairwise (user : List String) (n : ℤ) :
    (topIndices user n).Pairwise (fun i j => rankRel (simsList user) j i) := by
  have hrev : ((argsortAsc (simsList user)).reverse).Pairwise
      (fun i j => rankRel (simsList user) j i) :=
    List.pairwise_reverse.mpr (argsortAsc_pairwise _)
  exact List.Pairwise.sublist (topIndices_sublist user n) hrev

theorem topIndices_mem_lt (user : List String) (n : ℤ) :
    ∀ i ∈ topIndices user n, i < 10 := by
  intro i hi
  have h1 : i ∈ (argsortAsc (simsList user)).reverse :=
    (topIndices_sublist user n).subset hi
  have h2 : i ∈ argsortAsc (simsList user) := List.mem_reverse.mp h1
  have h3 : i ∈ List.range (simsList user).length := (argsortAsc_perm _).mem_iff.mp h2
  rw [simsList_length] at h3
  exact List.mem_range.mp h3

theorem topIndices_length (user : List String) (n : ℤ) :
    (topIndices user n).length =
      if 0 ≤ n then min n.toNat 10 else ((10 : ℤ) + n).toNat := by
  have hlen : ((argsortAsc (simsList user)).reverse).length = 10 := by
    rw [List.length_reverse, argsortAsc_length, simsList_length]
  unfold topIndices pySliceTake
  by_cases h : 0 ≤ n
  · rw [if_pos h, if_pos h, List.length_take, hlen]
  · rw [if_neg h, if_neg h, List.length_take, hlen]
    omega

theorem recommend_len (setIter : String → List String) (user : List String) (n : ℤ) :
    (recommend_careers setIter user n).length =
      if 0 ≤ n then min n.toNat 10 else ((10 : ℤ) + n).toNat := by
  unfold recommend_careers
  rw [List.length_map, topIndices_length]

theorem careerNames_indexOf_getD :
    ∀ i, i < 10 → careerNames.indexOf (careerNames.getD i "") = i := by
  decide

theorem map_getD_range {α : Type} (l : List α) (d : α) :
    (List.range l.length).map (fun i => l.getD i d) = l := by
  induction l with
  | nil => rfl
  | cons a t ih =>
    rw [List.length_cons, List.range_succ_eq_map, List.map_cons, List.map_map]
    have hc : ((fun i => (a :: t).getD i d) ∘ Nat.succ) = (fun i => t.getD i d) := by
      funext i
      rfl
    rw [hc, ih]
    rfl

/-- Claim C3 (amended): `recommend_careers` returns at most `topN` entries
for positive `topN`, sorted by non-increasing score, and returns every
catalog career when `topN` is at least the catalog size; however entries
with equal scores appear in REVERSE catalog insertion order (ascending
stable argsort followed by reversal), not in catalog insertion order. -/
theorem c3_ranking (setIter : String → List String) (user : List String) (n : ℤ)
    (hn : 0 < n) :
    (recommend_careers setIter user n).length ≤ n.toNat ∧
    (recommend_careers setIter user n).Pairwise (fun e e2 => e2.score ≤ e.score) ∧
    (recommend_careers setIter user n).Pairwise (fun e e2 =>
      e.score = e2.score →
        careerNames.indexOf e2.career < careerNames.indexOf e.career) ∧
    ((10 : ℤ) ≤ n →
      List.Perm ((recommend_careers setIter user n).map (fun e => e.career)) careerNames) := by
  refine ⟨?_, ?_, ?_, ?_⟩
  · rw [recommend_len]
    rw [if_pos (le_of_lt hn)]
    omega
  · unfold recommend_careers
    rw [List.pairwise_map]
    apply List.Pairwise.imp ?_ (topIndices_pairwise user n)
    intro i j hr
    dsimp only
    have : (simsList user).getD j 0 ≤ (simsList user).getD i 0 := by
      rcases hr with h | ⟨h, -⟩
      · exact le_of_lt h
      · exact le_of_eq h
    exact mul_le_mul_of_nonneg_right this (by norm_num)
  · unfold recommend_careers
    rw [List.pairwise_map]
    have hb := topIndices_mem_lt user n
    apply List.Pairwise.imp_of_mem ?_ (topIndices_pairwise user n)
    intro i j hi hj hr
    dsimp only
    intro hsc
    have hv : (simsList user).getD i 0 = (simsList user).getD j 0 :=
      mul_right_cancel₀ (by norm_num : (100 : ℝ) ≠ 0) hsc
    have hij : j < i := by
      rcases hr with h | ⟨-, h⟩
      · rw [hv] at h
        exact absurd h (lt_irrefl _)
      · exact h
    rw [careerNames_indexOf_getD i (hb i hi), careerNames_indexOf_getD j (hb j hj)]
    exact hij
  · intro h10
    unfold recommend_careers
    rw [List.map_map]
    have htop : topIndices user n = (argsortAsc (simsList user)).reverse := by
      unfold topIndices pySliceTake
      rw [if_pos (le_of_lt hn)]
      apply List.take_of_length_le
      rw [List.length_reverse, argsortAsc_length, simsList_length]
      omega
    rw [htop]
    have hperm : List.Perm (argsortAsc (simsList user)).reverse (List.range 10) := by
      have h1 := argsortAsc_perm (simsList user)
      rw [simsList_length] at h1
      exact (List.reverse_perm _).trans h1
    have hmap := hperm.map (fun i => careerNames.getD i "")
    have hnames : (List.range 10).map (fun i => careerNames.getD i "") = careerNames :=
      map_getD_range careerNames ""
    rw [hnames] at hmap
    exact hmap

theorem c3_witness :
    (recommend_careers declaredIter ["Python"] 3).length ≤ (3 : ℤ).toNat :=
  (c3_ranking declaredIter ["Python"] 3 (by decide)).1

/-- Claim C7 (amended): `recommend_careers` performs no validation of
`topN`.  A `topN` of zero yields the empty list and a negative `topN`
follows Python slice semantics, returning the first `max(0, 10 + topN)`
ranked entries; no `InvalidArgument` error exists in the code. -/
theorem c7_no_validation (setIter : String → List String) (user : List String) (n : ℤ)
    (hn : n ≤ 0) :
    (recommend_careers setIter user n).length =
      if n = 0 then 0 else ((10 : ℤ) + n).toNat := by
  rw [recommend_len]
  by_cases h0 : n = 0
  · rw [if_pos h0, h0]
    simp
  · rw [if_neg h0, if_neg (by omega : ¬ 0 ≤ n)]

theorem c7_witness :
    (recommend_careers declaredIter [] (-3)).length =
      if (-3 : ℤ) = 0 then 0 else ((10 : ℤ) + (-3)).toNat :=
  c7_no_validation declaredIter [] (-3) (by decide)

/-- Claim C7 counterexample: `recommend_careers` with non-positive `topN`
does not fail: `top_n = 0` returns the empty list and `top_n = -1` returns
nine entries (the Python slice drops the last element). -/
theorem c7_cex :
    recommend_careers declaredIter ["Python"] 0 = [] ∧
    (recommend_careers declaredIter ["Python"] (-1)).length = 9 := by
  constructor
  · unfold recommend_careers topIndices pySliceTake
    simp
  · rw [recommend_len]
    rfl

/-! ### Helper lemmas: the empty user input -/

theorem pyTokens_empty : pyTokens "" = [] := rfl

theorem countsVec_empty : countsVec "" = vocab.map (fun _ => 0) := by
  unfold countsVec
  apply List.map_congr_left
  intro t _
  rw [pyTokens_empty]
  rfl

theorem tfidf_zeros (L : List String) :
    List.zipWith (fun (c : ℕ) (d : ℕ) => (c : ℝ) * idf d) (L.map fun _ => 0) (L.map df) =
      L.map (fun _ => (0 : ℝ)) := by
  induction L with
  | nil => rfl
  | cons a t ih =>
    simp only [List.map_cons, List.zipWith_cons_cons]
    rw [ih, Nat.cast_zero, zero_mul]

theorem tfidfRaw_empty : tfidfRaw "" = vocab.map (fun _ => (0 : ℝ)) := by
  unfold tfidfRaw dfVec
  rw [countsVec_empty]
  exact tfidf_zeros vocab

theorem sum_sq_zeros {α : Type} (L : List α) :
    ((L.map fun _ => (0 : ℝ)).map (fun x => x ^ 2)).sum = 0 := by
  induction L with
  | nil => rfl
  | cons a t ih =>
    rw [List.map_cons, List.map_cons, List.sum_cons, ih]
    norm_num

theorem l2norm_zeros {α : Type} (L : List α) : l2norm (L.map fun _ => (0 : ℝ)) = 0 := by
  unfold l2norm
  rw [sum_sq_zeros, Real.sqrt_zero]

theorem dotL_zero_left {α : Type} (L : List α) (r : List ℝ) :
    dotL (L.map fun _ => (0 : ℝ)) r = 0 := by
  unfold dotL
  induction L generalizing r with
  | nil => simp
  | cons a t ih =>
    cases r with
    | nil => simp
    | cons b rb =>
      rw [List.map_cons, List.zipWith_cons_cons, List.sum_cons]
      have := ih rb
      unfold dotL at this
      rw [this, zero_mul, add_zero]

theorem transform_empty : transform "" = vocab.map (fun _ => (0 : ℝ)) := by
  unfold transform
  rw [tfidfRaw_empty, normRow, if_pos (l2norm_zeros _)]

theorem simsList_empty : simsList [] = List.replicate 10 (0 : ℝ) := by
  apply List.eq_replicate_iff.mpr
  refine ⟨simsList_length [], ?_⟩
  intro x hx
  unfold simsList at hx
  obtain ⟨row, -, hrow⟩ := List.mem_map.mp hx
  rw [← hrow]
  show dotL (normRow (transform "")) (normRow row) = 0
  rw [transform_empty, normRow, if_pos (l2norm_zeros _)]
  exact dotL_zero_left _ _

theorem getD_replicate_zero (k : ℕ) : (List.replicate 10 (0 : ℝ)).getD k 0 = 0 := by
  by_cases hk : k < 10
  · rw [List.getD_eq_getElem _ _ (by simpa using hk)]
    exact List.getElem_replicate _ _
  · exact List.getD_eq_default _ _ (by simpa using Nat.le_of_not_lt hk)

theorem insertionSort_of_total {α : Type} (r : α → α → Prop) [DecidableRel r] (l : List α)
    (h : ∀ a b, r a b) : List.insertionSort r l = l := by
  induction l with
  | nil => rfl
  | cons a t ih =>
    rw [List.insertionSort, ih]
    cases t with
    | nil => rfl
    | cons b tb => exact List.orderedInsert_of_le r tb (h a b)

theorem argsort_replicate : argsortAsc (List.replicate 10 (0 : ℝ)) = List.range 10 := by
  unfold argsortAsc
  rw [List.length_replicate]
  apply insertionSort_of_total
  intro i j
  show (List.replicate 10 (0:ℝ)).getD i 0 ≤ (List.replicate 10 (0:ℝ)).getD j 0
  rw [getD_replicate_zero i, getD_replicate_zero j]

theorem topIndices_empty (n : ℤ) (h10 : 10 ≤ n) :
    topIndices [] n = (List.range 10).reverse := by
  unfold topIndices pySliceTake
  rw [if_pos (by omega : (0:ℤ) ≤ n), simsList_empty, argsort_replicate]
  apply List.take_of_length_le
  rw [List.length_reverse, List.length_range]
  omega

theorem careerNames_length : careerNames.length = 10 := rfl

theorem recommend_empty_names (setIter : String → List String) (n : ℤ) (h10 : 10 ≤ n) :
    ((recommend_careers setIter [] n).map (fun e => e.career)) = careerNames.reverse ∧
    ∀ e ∈ recommend_careers setIter [] n, e.score = 0 := by
  constructor
  · unfold recommend_careers
    rw [List.map_map, topIndices_empty n h10, List.map_reverse]
    have h1 : List.map ((fun e : RecEntry => e.career) ∘ (fun idx =>
        { career := careerNames.getD idx ""
          score := (simsList []).getD idx 0 * 100
          gap := analyze_skill_gap [] (careerNames.getD idx "") (setIter (careerNames.getD idx ""))
          info := careerDB.lookup (careerNames.getD idx "") })) (List.range 10) =
        List.map (fun idx => careerNames.getD idx "") (List.range 10) := by
      apply List.map_congr_left
      intro i _
      rfl
    rw [h1]
    have h2 : List.range 10 = List.range careerNames.length := rfl
    rw [h2, map_getD_range]
  · intro e he
    unfold recommend_careers at he
    obtain ⟨idx, -, hentry⟩ := List.mem_map.mp he
    rw [← hentry]
    show (simsList []).getD idx 0 * 100 = 0
    rw [simsList_empty, getD_replicate_zero, zero_mul]

/-- Claim C6 (amended): the empty user skill list never faults — cosine
similarity against the zero vector is 0 for every career — and, when `topN`
covers the catalog, every career is returned at score 0; the ranking,
however, is REVERSE catalog order (ascending stable argsort of an all-equal
score list, then reversed), not catalog order. -/
theorem c6_empty_input (setIter : String → List String) (n : ℤ) (h10 : (10 : ℤ) ≤ n) :
    ((recommend_careers setIter [] n).map (fun e => e.career)) = careerNames.reverse ∧
    (∀ e ∈ recommend_careers setIter [] n, e.score = 0) :=
  recommend_empty_names setIter n h10

theorem c6_witness :
    ((recommend_careers declaredIter [] 10).map (fun e => e.career)) = careerNames.reverse :=
  (c6_empty_input declaredIter 10 (by decide)).1

/-- Claim C6 counterexample: with the empty skill list and `topN = 10`, the
recommendation list enumerates the careers in reverse catalog order, which
differs from catalog order, refuting "ranked by catalog order". -/
theorem c6_cex :
    ((recommend_careers declaredIter [] 10).map (fun e => e.career)) = careerNames.reverse ∧
    careerNames.reverse ≠ careerNames := by
  refine ⟨(recommend_empty_names declaredIter 10 (by decide)).1, by decide⟩

/-- Claim C3 counterexample: the empty skill list gives every career the
same score 0, yet the ten entries come out in reverse catalog order, so
entries with equal scores do not appear in catalog insertion order. -/
theorem c3_cex :
    (∀ e ∈ recommend_careers declaredIter [] 10, e.score = 0) ∧
    ((recommend_careers declaredIter [] 10).map (fun e => e.career)) = careerNames.reverse ∧
    careerNames.reverse ≠ careerNames := by
  obtain ⟨h1, h2⟩ := recommend_empty_names declaredIter 10 (by decide)
  exact ⟨h2, h1, by decide⟩

theorem dfVec_lit : dfVec = [1, 1, 1, 1, 1, 2, 1, 1, 1, 1, 1, 2, 1, 1, 1, 1, 1, 3, 1, 2, 2, 1, 1, 1, 1, 1, 1, 1, 1, 1, 1, 1, 1, 1, 1, 1, 1, 2, 1, 2, 1, 1, 1, 1, 1, 1, 1, 2, 1, 1, 1, 1, 4, 1, 1, 2, 1, 1, 2, 1, 1, 3, 1, 1, 1, 1, 1, 2, 1, 1, 1, 1, 1, 1, 1, 1] := by decide

theorem counts_u1 : countsVec (joinTexts ["Python", "Figma"]) = [0, 0, 0, 0, 0, 0, 0, 0, 0, 0, 0, 0, 0, 0, 0, 0, 0, 0, 0, 0, 0, 0, 0, 0, 0, 0, 1, 0, 0, 0, 0, 0, 0, 0, 0, 0, 0, 0, 0, 0, 0, 0, 0, 0, 0, 0, 0, 0, 0, 0, 0, 0, 1, 0, 0, 0, 0, 0, 0, 0, 0, 0, 0, 0, 0, 0, 0, 0, 0, 0, 0, 0, 0, 0, 0, 0] := by decide

theorem counts_u2 : countsVec (joinTexts ["Python", "Python", "Figma"]) = [0, 0, 0, 0, 0, 0, 0, 0, 0, 0, 0, 0, 0, 0, 0, 0, 0, 0, 0, 0, 0, 0, 0, 0, 0, 0, 1, 0, 0, 0, 0, 0, 0, 0, 0, 0, 0, 0, 0, 0, 0, 0, 0, 0, 0, 0, 0, 0, 0, 0, 0, 0, 2, 0, 0, 0, 0, 0, 0, 0, 0, 0, 0, 0, 0, 0, 0, 0, 0, 0, 0, 0, 0, 0, 0, 0] := by decide

theorem counts_d4 : countsVec (corpusDocs.getD 4 "") = [0, 0, 0, 0, 0, 0, 0, 0, 0, 0, 0, 0, 0, 0, 0, 0, 1, 0, 0, 0, 1, 0, 0, 0, 0, 0, 1, 0, 0, 0, 0, 0, 0, 1, 0, 0, 0, 0, 0, 0, 0, 0, 0, 0, 0, 0, 0, 0, 0, 0, 0, 1, 0, 0, 0, 1, 0, 0, 0, 0, 0, 0, 0, 0, 0, 0, 0, 1, 1, 1, 1, 0, 0, 0, 0, 1] := by decide

theorem tfidfRaw_u1 : tfidfRaw (joinTexts ["Python", "Figma"]) = [0, 0, 0, 0, 0, 0, 0, 0, 0, 0, 0, 0, 0, 0, 0, 0, 0, 0, 0, 0, 0, 0, 0, 0, 0, 0, idf 1, 0, 0, 0, 0, 0, 0, 0, 0, 0, 0, 0, 0, 0, 0, 0, 0, 0, 0, 0, 0, 0, 0, 0, 0, 0, idf 4, 0, 0, 0, 0, 0, 0, 0, 0, 0, 0, 0, 0, 0, 0, 0, 0, 0, 0, 0, 0, 0, 0, 0] := by
  unfold tfidfRaw
  rw [counts_u1, dfVec_lit]
  norm_num [List.zipWith]

theorem tfidfRaw_u2 : tfidfRaw (joinTexts ["Python", "Python", "Figma"]) = [0, 0, 0, 0, 0, 0, 0, 0, 0, 0, 0, 0, 0, 0, 0, 0, 0, 0, 0, 0, 0, 0, 0, 0, 0, 0, idf 1, 0, 0, 0, 0, 0, 0, 0, 0, 0, 0, 0, 0, 0, 0, 0, 0, 0, 0, 0, 0, 0, 0, 0, 0, 0, 2 * idf 4, 0, 0, 0, 0, 0, 0, 0, 0, 0, 0, 0, 0, 0, 0, 0, 0, 0, 0, 0, 0, 0, 0, 0] := by
  unfold tfidfRaw
  rw [counts_u2, dfVec_lit]
  norm_num [List.zipWith]

theorem tfidfRaw_d4 : tfidfRaw (corpusDocs.getD 4 "") = [0, 0, 0, 0, 0, 0, 0, 0, 0, 0, 0, 0, 0, 0, 0, 0, idf 1, 0, 0, 0, idf 2, 0, 0, 0, 0, 0, idf 1, 0, 0, 0, 0, 0, 0, idf 1, 0, 0, 0, 0, 0, 0, 0, 0, 0, 0, 0, 0, 0, 0, 0, 0, 0, idf 1, 0, 0, 0, idf 2, 0, 0, 0, 0, 0, 0, 0, 0, 0, 0, 0, idf 2, idf 1, idf 1, idf 1, 0, 0, 0, 0, idf 1] := by
  unfold tfidfRaw
  rw [counts_d4, dfVec_lit]
  norm_num [List.zipWith]

theorem sum_sq_nonneg (v : List ℝ) : 0 ≤ (v.map (fun x => x ^ 2)).sum := by
  apply List.sum_nonneg
  intro x hx
  obtain ⟨y, -, rfl⟩ := List.mem_map.mp hx
  positivity

theorem l2norm_pos_of_mem (v : List ℝ) (x : ℝ) (hx : x ∈ v) (hx0 : x ≠ 0) :
    0 < l2norm v := by
  unfold l2norm
  apply Real.sqrt_pos.mpr
  have hmem : x ^ 2 ∈ v.map (fun t => t ^ 2) := List.mem_map_of_mem _ hx
  have hle : x ^ 2 ≤ (v.map (fun t => t ^ 2)).sum :=
    List.single_le_sum
      (fun y hy => by obtain ⟨z, -, rfl⟩ := List.mem_map.mp hy; positivity) _ hmem
  have hx2 : 0 < x ^ 2 := by positivity
  linarith

theorem idf_pos (d : ℕ) (hd : d ≤ 10) : 0 < idf d := by
  unfold idf
  have hn : (nDocs : ℝ) = 10 := by norm_num [nDocs, corpusDocs, careerDB]
  rw [hn]
  have h1 : (1 : ℝ) ≤ (1 + 10) / (1 + (d : ℝ)) := by
    rw [le_div_iff₀ (by positivity)]
    have hdr : (d : ℝ) ≤ 10 := by exact_mod_cast hd
    linarith
  have h2 := Real.log_nonneg h1
  linarith

theorem dot_u1_d4 :
    dotL (tfidfRaw (joinTexts ["Python", "Figma"])) (tfidfRaw (corpusDocs.getD 4 "")) =
      idf 1 * idf 1 := by
  rw [tfidfRaw_u1, tfidfRaw_d4]
  unfold dotL
  norm_num [List.zipWith, List.sum_cons]

theorem dot_u2_d4 :
    dotL (tfidfRaw (joinTexts ["Python", "Python", "Figma"])) (tfidfRaw (corpusDocs.getD 4 "")) =
      idf 1 * idf 1 := by
  rw [tfidfRaw_u2, tfidfRaw_d4]
  unfold dotL
  norm_num [List.zipWith, List.sum_cons]

theorem sumsq_u1 :
    ((tfidfRaw (joinTexts ["Python", "Figma"])).map (fun x => x ^ 2)).sum =
      idf 1 ^ 2 + idf 4 ^ 2 := by
  rw [tfidfRaw_u1]
  norm_num [List.sum_cons]

theorem sumsq_u2 :
    ((tfidfRaw (joinTexts ["Python", "Python", "Figma"])).map (fun x => x ^ 2)).sum =
      idf 1 ^ 2 + (2 * idf 4) ^ 2 := by
  rw [tfidfRaw_u2]
  norm_num [List.sum_cons]

theorem l2norm_map_div (v : List ℝ) (c : ℝ) (hc : 0 < c) :
    l2norm (v.map (fun x => x / c)) = l2norm v / c := by
  unfold l2norm
  rw [List.map_map]
  have hfun : ((fun x => x ^ 2) ∘ fun x => x / c) = fun x => x ^ 2 * (c ^ 2)⁻¹ := by
    funext x
    field_simp
  rw [hfun]
  have hsum : (v.map (fun x => x ^ 2 * (c ^ 2)⁻¹)).sum =
      (v.map (fun x => x ^ 2)).sum * (c ^ 2)⁻¹ := List.sum_map_mul_right _ _ _
  rw [hsum, mul_comm, Real.sqrt_mul (by positivity), Real.sqrt_inv, Real.sqrt_sq hc.le]
  rw [mul_comm, div_eq_mul_inv]

theorem l2norm_nonneg (v : List ℝ) : 0 ≤ l2norm v := Real.sqrt_nonneg _

theorem normRow_idem (v : List ℝ) : normRow (normRow v) = normRow v := by
  by_cases h : l2norm v = 0
  · unfold normRow
    rw [if_pos h, if_pos h]
  · have hpos : 0 < l2norm v := lt_of_le_of_ne (l2norm_nonneg v) (Ne.symm h)
    have hinner : normRow v = v.map (fun x => x / l2norm v) := by
      unfold normRow
      rw [if_neg h]
    have hn1 : l2norm (v.map (fun x => x / l2norm v)) = 1 := by
      rw [l2norm_map_div v _ hpos, div_self h]
    rw [hinner]
    unfold normRow
    rw [hn1, if_neg one_ne_zero]
    simp

theorem sum_zipWith_mul_const (a b : List ℝ) (c : ℝ) :
    (List.zipWith (fun x y => x * y * c) a b).sum =
      (List.zipWith (fun x y => x * y) a b).sum * c := by
  induction a generalizing b with
  | nil => simp
  | cons x t ih =>
    cases b with
    | nil => simp
    | cons y tb =>
      rw [List.zipWith_cons_cons, List.zipWith_cons_cons, List.sum_cons, List.sum_cons, ih tb]
      ring

theorem dotL_normRow (a b : List ℝ) (ha : l2norm a ≠ 0) (hb : l2norm b ≠ 0) :
    dotL (normRow a) (normRow b) = dotL a b / (l2norm a * l2norm b) := by
  unfold normRow
  rw [if_neg ha, if_neg hb]
  unfold dotL
  rw [List.zipWith_map]
  have hfun : (fun (x y : ℝ) => (x / l2norm a) * (y / l2norm b)) =
      fun x y => (x * y) * (l2norm a * l2norm b)⁻¹ := by
    funext x y
    field_simp
  rw [hfun, sum_zipWith_mul_const, div_eq_mul_inv]

theorem corpusDocs_length : corpusDocs.length = 10 := rfl

theorem simsList_getD (user : List String) (k : ℕ) (hk : k < 10) :
    (simsList user).getD k 0 =
      dotL (normRow (transform (joinTexts user)))
        (normRow (transform (corpusDocs.getD k ""))) := by
  unfold simsList skillMatrix
  rw [List.map_map]
  have hk2 : k < corpusDocs.length := by
    rw [corpusDocs_length]
    exact hk
  have hk1 : k < (corpusDocs.map ((fun row =>
      dotL (normRow (transform (joinTexts user))) (normRow row)) ∘ transform)).length := by
    rw [List.length_map]
    exact hk2
  rw [List.getD_eq_getElem _ _ hk1, List.getElem_map, List.getD_eq_getElem _ _ hk2]
  rfl

theorem sims_entry_formula (user : List String) (k : ℕ) (hk : k < 10)
    (hu : l2norm (tfidfRaw (joinTexts user)) ≠ 0)
    (hd : l2norm (tfidfRaw (corpusDocs.getD k "")) ≠ 0) :
    (simsList user).getD k 0 =
      dotL (tfidfRaw (joinTexts user)) (tfidfRaw (corpusDocs.getD k "")) /
        (l2norm (tfidfRaw (joinTexts user)) * l2norm (tfidfRaw (corpusDocs.getD k ""))) := by
  rw [simsList_getD user k hk]
  unfold transform
  rw [normRow_idem, normRow_idem]
  exact dotL_normRow _ _ hu hd

theorem l2_u1_pos : 0 < l2norm (tfidfRaw (joinTexts ["Python", "Figma"])) := by
  apply l2norm_pos_of_mem _ (idf 1)
  · rw [tfidfRaw_u1]
    simp
  · exact ne_of_gt (idf_pos 1 (by norm_num))

theorem l2_u2_pos : 0 < l2norm (tfidfRaw (joinTexts ["Python", "Python", "Figma"])) := by
  apply l2norm_pos_of_mem _ (idf 1)
  · rw [tfidfRaw_u2]
    simp
  · exact ne_of_gt (idf_pos 1 (by norm_num))

theorem l2_d4_pos : 0 < l2norm (tfidfRaw (corpusDocs.getD 4 "")) := by
  apply l2norm_pos_of_mem _ (idf 1)
  · rw [tfidfRaw_d4]
    simp
  · exact ne_of_gt (idf_pos 1 (by norm_num))

theorem topIndices_all10 (user : List String) :
    topIndices user 10 = (argsortAsc (simsList user)).reverse := by
  unfold topIndices pySliceTake
  rw [if_pos (by norm_num : (0 : ℤ) ≤ 10)]
  apply List.take_of_length_le
  rw [List.length_reverse, argsortAsc_length, simsList_length]
  norm_num

theorem topIndices_perm10 (user : List String) :
    List.Perm (topIndices user 10) (List.range 10) := by
  rw [topIndices_all10]
  have h := argsortAsc_perm (simsList user)
  rw [simsList_length] at h
  exact (List.reverse_perm _).trans h

theorem names_inj :
    ∀ i < 10, ∀ j < 10, careerNames.getD i "" = careerNames.getD j "" → i = j := by
  decide

theorem map_names_inj (T1 : List ℕ) :
    ∀ (T2 : List ℕ), (∀ i ∈ T1, i < 10) → (∀ i ∈ T2, i < 10) →
      T1.map (fun i => careerNames.getD i "") = T2.map (fun i => careerNames.getD i "") →
      T1 = T2 := by
  induction T1 with
  | nil =>
    intro T2 _ _ heq
    cases T2 with
    | nil => rfl
    | cons b t => simp at heq
  | cons a t ih =>
    intro T2 h1 h2 heq
    cases T2 with
    | nil => simp at heq
    | cons b t2 =>
      rw [List.map_cons, List.map_cons] at heq
      injection heq with hh ht
      have hab : a = b :=
        names_inj a (h1 a (List.mem_cons_self _ _)) b (h2 b (List.mem_cons_self _ _)) hh
      rw [hab,
        ih t2 (fun i hi => h1 i (List.mem_cons_of_mem _ hi))
          (fun i hi => h2 i (List.mem_cons_of_mem _ hi)) ht]

/-- Claim C5 counterexample: duplicating "Python" in the skill list changes
the term frequency, hence the direction of the user vector, hence the cosine
score of the career "UX Designer" (catalog index 4), so the two calls return
different recommendation lists even though the skill SETS coincide. -/
theorem c5_cex :
    recommend_careers declaredIter ["Python", "Figma"] 10 ≠
      recommend_careers declaredIter ["Python", "Python", "Figma"] 10 := by
  intro heq
  have hT : topIndices ["Python", "Figma"] 10 = topIndices ["Python", "Python", "Figma"] 10 := by
    apply map_names_inj _ _ (topIndices_mem_lt _ _) (topIndices_mem_lt _ _)
    have h1 := congrArg (List.map (fun e : RecEntry => e.career)) heq
    unfold recommend_careers at h1
    rw [List.map_map, List.map_map] at h1
    exact h1
  have h4 : (4 : ℕ) ∈ topIndices ["Python", "Figma"] 10 :=
    (topIndices_perm10 _).mem_iff.mpr (List.mem_range.mpr (by norm_num))
  unfold recommend_careers at heq
  rw [← hT] at heq
  have hent := List.map_inj_left.mp heq 4 h4
  have hscore : (simsList ["Python", "Figma"]).getD 4 0 * 100 =
      (simsList ["Python", "Python", "Figma"]).getD 4 0 * 100 :=
    congrArg RecEntry.score hent
  have hs : (simsList ["Python", "Figma"]).getD 4 0 =
      (simsList ["Python", "Python", "Figma"]).getD 4 0 :=
    mul_right_cancel₀ (by norm_num : (100 : ℝ) ≠ 0) hscore
  have hu1 := ne_of_gt l2_u1_pos
  have hu2 := ne_of_gt l2_u2_pos
  have hd4 := ne_of_gt l2_d4_pos
  rw [sims_entry_formula _ 4 (by norm_num) hu1 hd4,
      sims_entry_formula _ 4 (by norm_num) hu2 hd4,
      dot_u1_d4, dot_u2_d4] at hs
  have hA : (0 : ℝ) < idf 1 * idf 1 :=
    mul_pos (idf_pos 1 (by norm_num)) (idf_pos 1 (by norm_num))
  have hprod1 : (0 : ℝ) < l2norm (tfidfRaw (joinTexts ["Python", "Figma"])) *
      l2norm (tfidfRaw (corpusDocs.getD 4 "")) := mul_pos l2_u1_pos l2_d4_pos
  have hprod2 : (0 : ℝ) < l2norm (tfidfRaw (joinTexts ["Python", "Python", "Figma"])) *
      l2norm (tfidfRaw (corpusDocs.getD 4 "")) := mul_pos l2_u2_pos l2_d4_pos
  rw [div_eq_div_iff (ne_of_gt hprod1) (ne_of_gt hprod2)] at hs
  have hyx := mul_left_cancel₀ (ne_of_gt hA) hs
  have hxy : l2norm (tfidfRaw (joinTexts ["Python", "Python", "Figma"])) =
      l2norm (tfidfRaw (joinTexts ["Python", "Figma"])) :=
    mul_right_cancel₀ hd4 hyx
  unfold l2norm at hxy
  rw [sumsq_u1, sumsq_u2] at hxy
  have hS : idf 1 ^ 2 + (2 * idf 4) ^ 2 = idf 1 ^ 2 + idf 4 ^ 2 :=
    (Real.sqrt_inj (by positivity) (by positivity)).mp hxy
  have h4pos := idf_pos 4 (by norm_num)
  nlinarith [h4pos]

theorem isWordChar_space : isWordChar ' ' = false := rfl

theorem tokArr_append_space (b : List Char) :
    ∀ (a cur : List Char), tokArr (a ++ ' ' :: b) cur = tokArr a cur ++ tokArr b [] := by
  intro a
  induction a with
  | nil =>
    intro cur
    rfl
  | cons c a2 ih =>
    intro cur
    show tokArr (c :: (a2 ++ ' ' :: b)) cur = tokArr (c :: a2) cur ++ tokArr b []
    simp only [tokArr]
    by_cases hc : isWordChar c = true
    · simp only [hc, if_true]
      exact ih (c :: cur)
    · rw [Bool.not_eq_true] at hc
      simp only [hc, Bool.false_eq_true, if_false]
      rw [ih [], List.append_assoc]

theorem joinTexts_cons_data (s s2 : String) (r2 : List String) :
    (joinTexts (s :: s2 :: r2)).data = s.data ++ ' ' :: (joinTexts (s2 :: r2)).data := by
  show (s ++ " " ++ joinTexts (s2 :: r2)).data = _
  rw [String.data_append, String.data_append, List.append_assoc]
  rfl

theorem pyTokens_join (l : List String) :
    pyTokens (joinTexts l) = l.flatMap pyTokens := by
  induction l with
  | nil => rfl
  | cons s r ih =>
    cases r with
    | nil =>
      show pyTokens (joinTexts [s]) = pyTokens s ++ []
      rw [List.append_nil]
      rfl
    | cons s2 r2 =>
      show pyTokens (joinTexts (s :: s2 :: r2)) = pyTokens s ++ (s2 :: r2).flatMap pyTokens
      rw [← ih]
      unfold pyTokens
      rw [joinTexts_cons_data s s2 r2, List.map_append, List.map_cons]
      rw [show Char.toLower ' ' = ' ' from rfl]
      exact tokArr_append_space _ _ []

theorem countsVec_perm (u1 u2 : List String) (h : List.Perm u1 u2) :
    countsVec (joinTexts u1) = countsVec (joinTexts u2) := by
  unfold countsVec
  apply List.map_congr_left
  intro t _
  rw [pyTokens_join, pyTokens_join]
  exact (h.flatMap_right pyTokens).count_eq t

theorem skillHit_congr (u1 u2 : List String) (h : ∀ s, s ∈ u1 ↔ s ∈ u2) (sl : String) :
    skillHit u1 sl = skillHit u2 sl := by
  apply Bool.eq_iff_iff.mpr
  rw [skillHit_iff, skillHit_iff]
  simp only [h]

theorem analyze_congr_user (u1 u2 : List String) (h : ∀ s, s ∈ u1 ↔ s ∈ u2)
    (career : String) (reqIter : List String) :
    analyze_skill_gap u1 career reqIter = analyze_skill_gap u2 career reqIter := by
  unfold analyze_skill_gap
  cases careerDB.lookup career with
  | none => rfl
  | some info =>
    have hh : ∀ s, skillHit u1 (pyLower s) = skillHit u2 (pyLower s) :=
      fun s => skillHit_congr u1 u2 h _
    simp only [hh]

/-- Claim C5 (amended): `recommend_careers` is unchanged by reordering the
user skill list (and repeated calls trivially agree, the embedding being a
pure function); but it is NOT invariant under duplicate entries, which
change term frequencies and hence similarity scores. -/
theorem c5_perm_invariance (setIter : String → List String) (u1 u2 : List String) (n : ℤ)
    (hperm : List.Perm u1 u2) :
    recommend_careers setIter u1 n = recommend_careers setIter u2 n := by
  have hcounts := countsVec_perm u1 u2 hperm
  have htf : tfidfRaw (joinTexts u1) = tfidfRaw (joinTexts u2) := by
    unfold tfidfRaw
    rw [hcounts]
  have htr : transform (joinTexts u1) = transform (joinTexts u2) := by
    unfold transform
    rw [htf]
  have hsims : simsList u1 = simsList u2 := by
    unfold simsList
    rw [htr]
  have hmem : ∀ s, s ∈ u1 ↔ s ∈ u2 := fun s => hperm.mem_iff
  unfold recommend_careers topIndices
  rw [hsims]
  apply List.map_congr_left
  intro idx _
  rw [analyze_congr_user u1 u2 hmem]

theorem c5_witness :
    recommend_careers declaredIter ["Python", "SQL"] 5 =
      recommend_careers declaredIter ["SQL", "Python"] 5 :=
  c5_perm_invariance declaredIter ["Python", "SQL"] ["SQL", "Python"] 5 (by decide)
